import Mathlib

/-!
Shallow embedding of `keras_tf_multigpu/callbacks.py`.

Python instance attributes that are only assigned inside lifecycle hooks are
modelled as `Option` fields (`none` meaning the attribute is not yet defined);
a method that reads such an attribute returns `none` exactly when the read
would raise `AttributeError` in Python.  Wall-clock readings (`time.time()`)
are passed in as explicit rational arguments; all scalar measurements are
modelled as `ℚ`.
-/

/-- Median as computed by `np.median`: the mean of the elements at sorted
positions `(n-1)/2` and `n/2` (they coincide when `n` is odd). -/
def npMedian (xs : List ℚ) : ℚ :=
  let s := xs.insertionSort (· ≤ ·)
  ((s.getD ((xs.length - 1) / 2) 0) + (s.getD (xs.length / 2) 0)) / 2

/-- State of a `BatchTiming` callback object.  Every field mirrors one
instance attribute of the Python class; all four are assigned lazily in
lifecycle hooks, hence `Option`. -/
structure BatchTiming where
  all_batch_times : Option (List ℚ)
  all_epoch_times : Option (List ℚ)
  epoch_batch_times : Option (List ℚ)
  start_time : Option ℚ
deriving DecidableEq

/-- A freshly constructed `BatchTiming()` object: no instance attribute is
defined yet (the class has no `__init__` of its own). -/
def BatchTiming.init : BatchTiming :=
  ⟨none, none, none, none⟩

/-- `BatchTiming.on_train_begin`: `self.all_batch_times = []`,
`self.all_epoch_times = []`. -/
def BatchTiming.on_train_begin (s : BatchTiming) : BatchTiming :=
  { s with all_batch_times := some [], all_epoch_times := some [] }

/-- `BatchTiming.on_epoch_begin`: `self.epoch_batch_times = []`. -/
def BatchTiming.on_epoch_begin (s : BatchTiming) : BatchTiming :=
  { s with epoch_batch_times := some [] }

/-- `BatchTiming.on_batch_begin`: `self.start_time = time.time()`; `now` is
the wall-clock reading. -/
def BatchTiming.on_batch_begin (s : BatchTiming) (now : ℚ) : BatchTiming :=
  { s with start_time := some now }

/-- `BatchTiming.on_batch_end`: `elapsed_time = time.time() - self.start_time`
then append `elapsed_time` to `self.epoch_batch_times` and to
`self.all_batch_times`.  Reads of the three attributes fail (`none`) when the
attribute was never assigned. -/
def BatchTiming.on_batch_end (s : BatchTiming) (now : ℚ) : Option BatchTiming := do
  let st ← s.start_time
  let elapsed_time := now - st
  let ebt ← s.epoch_batch_times
  let abt ← s.all_batch_times
  pure { s with
          epoch_batch_times := some (ebt ++ [elapsed_time]),
          all_batch_times := some (abt ++ [elapsed_time]) }

/-- `BatchTiming.on_epoch_end`: `epoch_time = np.sum(self.epoch_batch_times)`,
append it to `self.all_epoch_times`, and print
`(np.median(self.epoch_batch_times), epoch_time)`.  The returned pair of
rationals is the printed (median, epoch_time). -/
def BatchTiming.on_epoch_end (s : BatchTiming) : Option (BatchTiming × ℚ × ℚ) := do
  let ebt ← s.epoch_batch_times
  let aet ← s.all_epoch_times
  let epoch_time := ebt.sum
  pure ({ s with all_epoch_times := some (aet ++ [epoch_time]) },
        npMedian ebt, epoch_time)

/-- `BatchTiming.on_train_end`: print
`(np.median(self.all_batch_times), np.median(self.all_epoch_times))`. -/
def BatchTiming.on_train_end (s : BatchTiming) : Option (ℚ × ℚ) := do
  let abt ← s.all_batch_times
  let aet ← s.all_epoch_times
  pure (npMedian abt, npMedian aet)

/-- One batch of the host training loop as seen by `BatchTiming`: the loop
calls `on_batch_begin` at wall-clock `p.1` and `on_batch_end` at `p.2`. -/
def BatchTiming.runBatch (s : BatchTiming) (p : ℚ × ℚ) : Option BatchTiming :=
  (s.on_batch_begin p.1).on_batch_end p.2

/-- A sequence of batches as seen by `BatchTiming`. -/
def BatchTiming.runBatches : BatchTiming → List (ℚ × ℚ) → Option BatchTiming
  | s, [] => some s
  | s, p :: rest => do
      let s1 ← s.runBatch p
      s1.runBatches rest

/-- One epoch of the host training loop as seen by `BatchTiming`:
`on_epoch_begin`, then the batches `ps` (as `(start, end)` wall-clock pairs),
then `on_epoch_end`.  Returns the new state and the printed pair. -/
def BatchTiming.runEpoch (s : BatchTiming) (ps : List (ℚ × ℚ)) :
    Option (BatchTiming × ℚ × ℚ) := do
  let s1 ← s.on_epoch_begin.runBatches ps
  s1.on_epoch_end

/-- The epochs of a training run as seen by `BatchTiming`, collecting the pair
printed at each `on_epoch_end`. -/
def BatchTiming.runEpochs :
    BatchTiming → List (List (ℚ × ℚ)) → Option (BatchTiming × List (ℚ × ℚ))
  | s, [] => some (s, [])
  | s, ps :: rest => do
      let (s1, out) ← s.runEpoch ps
      let (s2, outs) ← s1.runEpochs rest
      pure (s2, out :: outs)

/-- A whole training run of a fresh `BatchTiming()` callback, in the lifecycle
order the host loop guarantees: `on_train_begin`, the epochs, `on_train_end`.
Returns the per-epoch printed pairs and the final printed pair. -/
def BatchTiming.runTraining (epochs : List (List (ℚ × ℚ))) :
    Option (List (ℚ × ℚ) × (ℚ × ℚ)) := do
  let (sf, outs) ← BatchTiming.init.on_train_begin.runEpochs epochs
  let fin ← sf.on_train_end
  pure (outs, fin)

/-- State of a `SamplesPerSec` callback object.  `batch_size` is set in
`__init__`; the other two attributes are assigned lazily in hooks. -/
structure SamplesPerSec where
  batch_size : ℚ
  all_samples_per_sec : Option (List ℚ)
  start_time : Option ℚ
deriving DecidableEq

/-- `SamplesPerSec.__init__(batch_size)`: only `self.batch_size` is set. -/
def SamplesPerSec.init (batch_size : ℚ) : SamplesPerSec :=
  ⟨batch_size, none, none⟩

/-- `SamplesPerSec.on_train_begin`: `self.all_samples_per_sec = []`. -/
def SamplesPerSec.on_train_begin (s : SamplesPerSec) : SamplesPerSec :=
  { s with all_samples_per_sec := some [] }

/-- `SamplesPerSec.on_batch_begin`: `self.start_time = time.time()`. -/
def SamplesPerSec.on_batch_begin (s : SamplesPerSec) (now : ℚ) : SamplesPerSec :=
  { s with start_time := some now }

/-- `SamplesPerSec.on_batch_end`: `elapsed_time = time.time() -
self.start_time`; append `self.batch_size / elapsed_time` to
`self.all_samples_per_sec`. -/
def SamplesPerSec.on_batch_end (s : SamplesPerSec) (now : ℚ) : Option SamplesPerSec := do
  let st ← s.start_time
  let elapsed_time := now - st
  let aps ← s.all_samples_per_sec
  pure { s with
          all_samples_per_sec := some (aps ++ [s.batch_size / elapsed_time]) }

/-- `SamplesPerSec.on_epoch_end` (via `print_results`): print
`np.median(self.all_samples_per_sec)`.  The state is not modified; the
returned rational is the printed value. -/
def SamplesPerSec.on_epoch_end (s : SamplesPerSec) : Option ℚ :=
  s.all_samples_per_sec.map npMedian

/-- The batches of one epoch as seen by `SamplesPerSec`: for each `(start,
end)` wall-clock pair, `on_batch_begin` then `on_batch_end`. -/
def SamplesPerSec.runBatches : SamplesPerSec → List (ℚ × ℚ) → Option SamplesPerSec
  | s, [] => some s
  | s, p :: rest => do
      let s1 ← (s.on_batch_begin p.1).on_batch_end p.2
      s1.runBatches rest

/-- The epochs of a training run as seen by `SamplesPerSec` (which defines no
`on_epoch_begin`, so nothing happens at an epoch start), collecting the value
printed at each `on_epoch_end`. -/
def SamplesPerSec.runEpochs :
    SamplesPerSec → List (List (ℚ × ℚ)) → Option (SamplesPerSec × List ℚ)
  | s, [] => some (s, [])
  | s, ps :: rest => do
      let s1 ← s.runBatches ps
      let m ← s1.on_epoch_end
      let (s2, ms) ← s1.runEpochs rest
      pure (s2, m :: ms)

/-- The per-batch throughput values an epoch contributes: `batch_size /
(end − start)` for each wall-clock pair. -/
def throughputs (batch_size : ℚ) (ps : List (ℚ × ℚ)) : List ℚ :=
  ps.map (fun p => batch_size / (p.2 - p.1))

/-- Written from the spec's words, for comparison with the code: the medians a
run should print, each taken over the throughput sequence accumulated since
train-begin across the whole run (never cleared at an epoch boundary). -/
def specRunningMedians (batch_size : ℚ) (acc : List ℚ) :
    List (List (ℚ × ℚ)) → List ℚ
  | [] => []
  | ps :: rest =>
      let acc1 := acc ++ throughputs batch_size ps
      npMedian acc1 :: specRunningMedians batch_size acc1 rest

/-- State of a `CudaProfile` callback object, together with an instrumentation
count of the calls made to the opaque profiler capability
(`cudaprofile.start()` / `cudaprofile.stop()`).

The Python source of `on_batch_end` is
`if self.enabled && batch >= batches_to_profile:` — a syntax error (`&&` is
not Python) that also references the free name `batches_to_profile`.  The
embedding reads it minimally repaired as
`if self.enabled and batch >= self.batches_to_profile:`, and keeps everything
else exactly as written (in particular `self.enabled` is never set back to
`False`). -/
structure CudaProfile where
  warmup_epochs : ℕ
  batches_to_profile : Option ℕ
  enabled : Bool
  startCalls : ℕ
  stopCalls : ℕ
deriving DecidableEq

/-- `CudaProfile.__init__(warmup_epochs, batches_to_profile)`:
`self.enabled = False`; no capability call has happened yet. -/
def CudaProfile.init (warmup_epochs : ℕ) (batches_to_profile : Option ℕ) :
    CudaProfile :=
  ⟨warmup_epochs, batches_to_profile, false, 0, 0⟩

/-- `CudaProfile.on_epoch_begin`: if `epoch == self.warmup_epochs` then
`cudaprofile.start()` and `self.enabled = True`. -/
def CudaProfile.on_epoch_begin (s : CudaProfile) (epoch : ℕ) : CudaProfile :=
  if epoch = s.warmup_epochs then
    { s with startCalls := s.startCalls + 1, enabled := true }
  else s

/-- `CudaProfile.on_batch_end` (minimally repaired, see `CudaProfile`): if
`self.enabled and batch >= self.batches_to_profile` then `cudaprofile.stop()`.
When `batches_to_profile` is `None` and the guard reaches the comparison,
Python raises `TypeError`, modelled as `none`.  `self.enabled` is left
unchanged, exactly as in the source. -/
def CudaProfile.on_batch_end (s : CudaProfile) (batch : ℕ) : Option CudaProfile :=
  if s.enabled then
    match s.batches_to_profile with
    | none => none
    | some b => if b ≤ batch then some { s with stopCalls := s.stopCalls + 1 }
                else some s
  else some s

/-- The two lifecycle events that reach `CudaProfile` (it defines no other
hooks). -/
inductive CPEvent where
  | epochBegin (epoch : ℕ)
  | batchEnd (batch : ℕ)
deriving DecidableEq

/-- One lifecycle event delivered to a `CudaProfile` object. -/
def CudaProfile.step (s : CudaProfile) : CPEvent → Option CudaProfile
  | .epochBegin e => some (s.on_epoch_begin e)
  | .batchEnd b => s.on_batch_end b

/-- A run of a `CudaProfile` object over a list of lifecycle events. -/
def CudaProfile.run (s : CudaProfile) (evs : List CPEvent) : Option CudaProfile :=
  evs.foldlM CudaProfile.step s

/-- Does this event trigger the `DISABLED → ENABLED` transition of a toggle
configured with `warmup_epochs = w`?  (Only `on_epoch_begin` with epoch index
exactly `w` does.) -/
def startTrigger (w : ℕ) : CPEvent → Bool
  | .epochBegin e => e = w
  | .batchEnd _ => false

/-- The current-epoch batch-time sequence is a time-ordered suffix of the
all-batches sequence, whenever it is defined at all. -/
def timeOrderedSuffix (s : BatchTiming) : Prop :=
  ∀ ts, s.epoch_batch_times = some ts →
    ∃ bs, s.all_batch_times = some bs ∧ ts <:+ bs

/-- The elapsed times a list of `(start, end)` wall-clock pairs produces. -/
def elapsedTimes (ps : List (ℚ × ℚ)) : List ℚ :=
  ps.map (fun p => p.2 - p.1)

/-- Every step of a `CudaProfile` run preserves the configuration and bumps
`startCalls` exactly on a start trigger (an `on_epoch_begin` whose epoch index
equals the configured `warmup_epochs`). -/
theorem CudaProfile.step_counts (s : CudaProfile) (e : CPEvent) (s' : CudaProfile)
    (h : s.step e = some s') :
    s'.startCalls =
      s.startCalls + (if startTrigger s.warmup_epochs e then 1 else 0) ∧
    s'.warmup_epochs = s.warmup_epochs ∧
    s'.batches_to_profile = s.batches_to_profile := by
  cases e with
  | epochBegin k =>
      simp only [CudaProfile.step, CudaProfile.on_epoch_begin, Option.some.injEq] at h
      subst h
      by_cases hk : k = s.warmup_epochs <;>
        simp [hk, startTrigger]
  | batchEnd b =>
      simp only [CudaProfile.step, CudaProfile.on_batch_end] at h
      cases hen : s.enabled with
      | false =>
          rw [hen] at h
          simp only [Bool.false_eq_true, if_false, Option.some.injEq] at h
          subst h
          simp [startTrigger]
      | true =>
          rw [hen] at h
          simp only [if_true] at h
          cases hb : s.batches_to_profile with
          | none => rw [hb] at h; simp at h
          | some n =>
              rw [hb] at h
              by_cases hle : n ≤ b <;>
                simp only [hle, if_true, if_false, Option.some.injEq] at h <;>
                (subst h; simp [startTrigger, hb])

/-- Over any run of a `CudaProfile` object, `startCalls` grows by exactly the
number of start triggers among the delivered events, and the configuration is
unchanged. -/
theorem CudaProfile.run_counts (evs : List CPEvent) (s s' : CudaProfile)
    (h : s.run evs = some s') :
    s'.startCalls = s.startCalls + evs.countP (startTrigger s.warmup_epochs) ∧
    s'.warmup_epochs = s.warmup_epochs := by
  induction evs generalizing s with
  | nil =>
      simp only [CudaProfile.run, List.foldlM, Option.pure_def,
        Option.some.injEq] at h
      subst h
      simp
  | cons e rest ih =>
      simp only [CudaProfile.run, List.foldlM] at h
      cases hstep : s.step e with
      | none => rw [hstep] at h; simp at h
      | some s1 =>
          rw [hstep] at h
          simp only [Option.bind_eq_bind, Option.some_bind] at h
          obtain ⟨hc, hw, _⟩ := CudaProfile.step_counts s e s1 hstep
          obtain ⟨ihc, ihw⟩ := ih s1 h
          rw [List.countP_cons]
          constructor
          · rw [ihc, hw, hc]
            omega
          · rw [ihw, hw]

/-- C1: the claim says the profiler-stop capability is invoked at most once
per run and the toggle is terminal once stopped.  The code (read with its
syntax error minimally repaired, see `CudaProfile`) never clears `enabled`,
so on the run below — `warmup_epochs = 0`, `batches_to_profile = 1`, one
`on_epoch_begin` and then `on_batch_end` for batches 0, 1, 2 — `stop()` is
invoked twice and the toggle is still enabled afterwards. -/
theorem cudaProfile_stop_called_twice :
    (CudaProfile.init 0 (some 1)).run
        [.epochBegin 0, .batchEnd 0, .batchEnd 1, .batchEnd 2] =
      some ⟨0, some 1, true, 1, 2⟩ := by
  rfl

/-- C2: starting from a fresh toggle with `warmup_epochs = w`, over any run in
which no event before (`pre`) or after (`post`) the distinguished
`on_epoch_begin w` call is itself a start trigger — which the lifecycle
guarantees, since epoch indices are strictly increasing — the profiler-start
capability is invoked exactly once, precisely at that call, and never
before it. -/
theorem cudaProfile_start_exactly_once (w : ℕ) (btp : Option ℕ)
    (pre post : List CPEvent)
    (hpre : ∀ e ∈ pre, startTrigger w e = false)
    (hpost : ∀ e ∈ post, startTrigger w e = false)
    (s1 s2 : CudaProfile)
    (h1 : (CudaProfile.init w btp).run pre = some s1)
    (h2 : (CudaProfile.init w btp).run (pre ++ CPEvent.epochBegin w :: post) =
      some s2) :
    s1.startCalls = 0 ∧ s2.startCalls = 1 := by
  have hwarm : (CudaProfile.init w btp).warmup_epochs = w := rfl
  have hzero : (CudaProfile.init w btp).startCalls = 0 := rfl
  have cpre : pre.countP (startTrigger w) = 0 := by
    rw [List.countP_eq_zero]
    intro e he
    simp [hpre e he]
  have cpost : post.countP (startTrigger w) = 0 := by
    rw [List.countP_eq_zero]
    intro e he
    simp [hpost e he]
  constructor
  · have := (CudaProfile.run_counts pre _ s1 h1).1
    rw [hwarm, hzero, cpre] at this
    exact this
  · have := (CudaProfile.run_counts _ _ s2 h2).1
    rw [hwarm, hzero] at this
    rw [List.countP_append, List.countP_cons, cpre, cpost] at this
    simpa [startTrigger] using this

/-- Witness for C2 at `warmup_epochs = 2`, `batches_to_profile = some 5`, a
prefix covering epochs 0 and 1 and a suffix covering epoch 3: no start before
the `on_epoch_begin 2` call, exactly one start on the whole run. -/
theorem cudaProfile_start_exactly_once_witness :
    (CudaProfile.init 2 (some 5)).startCalls = 0 ∧
    (⟨2, some 5, true, 1, 0⟩ : CudaProfile).startCalls = 1 :=
  cudaProfile_start_exactly_once 2 (some 5)
    [.epochBegin 0, .batchEnd 0, .epochBegin 1, .batchEnd 0]
    [.batchEnd 0, .epochBegin 3]
    (by decide) (by decide)
    (CudaProfile.init 2 (some 5)) ⟨2, some 5, true, 1, 0⟩
    (by rfl) (by rfl)

/-- Running the batches of one epoch appends each batch's elapsed time to
both defined time sequences and leaves the epoch-aggregate sequence
untouched. -/
theorem BatchTiming.runBatches_spec (ps : List (ℚ × ℚ)) (s : BatchTiming)
    (ts bs : List ℚ) (h1 : s.epoch_batch_times = some ts)
    (h2 : s.all_batch_times = some bs) :
    ∃ s', s.runBatches ps = some s' ∧
      s'.epoch_batch_times = some (ts ++ elapsedTimes ps) ∧
      s'.all_batch_times = some (bs ++ elapsedTimes ps) ∧
      s'.all_epoch_times = s.all_epoch_times := by
  induction ps generalizing s ts bs with
  | nil =>
      exact ⟨s, rfl, by simp [h1, elapsedTimes], by simp [h2, elapsedTimes], rfl⟩
  | cons p rest ih =>
      have hstep : s.runBatch p =
          some { s with
                  epoch_batch_times := some (ts ++ [p.2 - p.1]),
                  all_batch_times := some (bs ++ [p.2 - p.1]),
                  start_time := some p.1 } := by
        simp [BatchTiming.runBatch, BatchTiming.on_batch_begin,
          BatchTiming.on_batch_end, h1, h2]
      obtain ⟨s', hrest, he, ha, hae⟩ :=
        ih { s with
              epoch_batch_times := some (ts ++ [p.2 - p.1]),
              all_batch_times := some (bs ++ [p.2 - p.1]),
              start_time := some p.1 }
          (ts ++ [p.2 - p.1]) (bs ++ [p.2 - p.1]) rfl rfl
      refine ⟨s', ?_, ?_, ?_, ?_⟩
      · simp only [BatchTiming.runBatches]
        rw [hstep]
        simp only [Option.bind_eq_bind, Option.some_bind]
        exact hrest
      · rw [he]; simp [elapsedTimes]
      · rw [ha]; simp [elapsedTimes]
      · rw [hae]

/-- One whole epoch from a state whose run-scoped sequences are defined:
`on_epoch_begin` clears the current-epoch sequence, the batches fill it with
their elapsed times, and `on_epoch_end` prints their median together with
their exact sum, appending that sum to the run-scoped epoch sequence. -/
theorem BatchTiming.runEpoch_spec (ps : List (ℚ × ℚ)) (s : BatchTiming)
    (bs es : List ℚ) (h1 : s.all_batch_times = some bs)
    (h2 : s.all_epoch_times = some es) :
    ∃ s', s.runEpoch ps =
        some (s', npMedian (elapsedTimes ps), (elapsedTimes ps).sum) ∧
      s'.all_batch_times = some (bs ++ elapsedTimes ps) ∧
      s'.all_epoch_times = some (es ++ [(elapsedTimes ps).sum]) ∧
      s'.epoch_batch_times = some (elapsedTimes ps) := by
  obtain ⟨s1, hfold, he, ha, hae⟩ :=
    BatchTiming.runBatches_spec ps s.on_epoch_begin [] bs rfl
      (by simp [BatchTiming.on_epoch_begin, h1])
  rw [List.nil_append] at he
  have hae2 : s1.all_epoch_times = some es := by
    rw [hae]; simp [BatchTiming.on_epoch_begin, h2]
  refine ⟨{ s1 with all_epoch_times := some (es ++ [(elapsedTimes ps).sum]) },
    ?_, ?_, ?_, ?_⟩
  · simp only [BatchTiming.runEpoch]
    rw [hfold]
    simp only [Option.bind_eq_bind, Option.some_bind]
    simp [BatchTiming.on_epoch_end, he, hae2]
  · simpa using ha
  · rfl
  · simpa using he

/-- Running a sequence of epochs from a state whose run-scoped sequences are
defined: the printed pairs are each epoch's (median, exact sum), and the
run-scoped sequences accumulate all batches and all epoch sums. -/
theorem BatchTiming.runEpochs_spec (epochs : List (List (ℚ × ℚ)))
    (s : BatchTiming) (bs es : List ℚ) (h1 : s.all_batch_times = some bs)
    (h2 : s.all_epoch_times = some es) :
    ∃ s', s.runEpochs epochs =
        some (s', epochs.map
          (fun ps => (npMedian (elapsedTimes ps), (elapsedTimes ps).sum))) ∧
      s'.all_batch_times = some (bs ++ (epochs.map elapsedTimes).flatten) ∧
      s'.all_epoch_times =
        some (es ++ epochs.map (fun ps => (elapsedTimes ps).sum)) := by
  induction epochs generalizing s bs es with
  | nil => exact ⟨s, rfl, by simp [h1], by simp [h2]⟩
  | cons ps rest ih =>
      obtain ⟨s1, hep, ha1, hae1, _⟩ :=
        BatchTiming.runEpoch_spec ps s bs es h1 h2
      obtain ⟨s', hrest, ha', hae'⟩ :=
        ih s1 (bs ++ elapsedTimes ps) (es ++ [(elapsedTimes ps).sum]) ha1 hae1
      refine ⟨s', ?_, ?_, ?_⟩
      · simp only [BatchTiming.runEpochs]
        rw [hep]
        simp only [Option.bind_eq_bind, Option.some_bind]
        rw [hrest]
        simp
      · rw [ha']; simp
      · rw [hae']; simp

/-- A full training run of `BatchTiming`: every epoch prints its batch-time
median and exact epoch total, and `on_train_end` prints the median over all
batches of the run and the median over all epoch totals. -/
theorem BatchTiming.runTraining_spec (epochs : List (List (ℚ × ℚ))) :
    BatchTiming.runTraining epochs =
      some (epochs.map
          (fun ps => (npMedian (elapsedTimes ps), (elapsedTimes ps).sum)),
        npMedian (epochs.map elapsedTimes).flatten,
        npMedian (epochs.map (fun ps => (elapsedTimes ps).sum))) := by
  obtain ⟨s', hrun, ha, hae⟩ :=
    BatchTiming.runEpochs_spec epochs BatchTiming.init.on_train_begin [] []
      rfl rfl
  simp only [BatchTiming.runTraining]
  rw [hrun]
  simp only [Option.bind_eq_bind, Option.some_bind]
  simp [BatchTiming.on_train_end, ha, hae]

/-- Characterization of a successful `BatchTiming.on_batch_end`: all three
attributes it reads were defined, and the elapsed time is appended to both
time sequences. -/
theorem BatchTiming.on_batch_end_some (s : BatchTiming) (now : ℚ)
    (s' : BatchTiming) (h : s.on_batch_end now = some s') :
    ∃ st ebt abt, s.start_time = some st ∧ s.epoch_batch_times = some ebt ∧
      s.all_batch_times = some abt ∧
      s' = { s with epoch_batch_times := some (ebt ++ [now - st]),
                    all_batch_times := some (abt ++ [now - st]) } := by
  rcases s with ⟨a, e, t, st⟩
  rcases st with _ | st
  · simp [BatchTiming.on_batch_end] at h
  · rcases t with _ | t
    · simp [BatchTiming.on_batch_end] at h
    · rcases a with _ | a
      · simp [BatchTiming.on_batch_end] at h
      · simp only [BatchTiming.on_batch_end, Option.bind_eq_bind,
          Option.some_bind, Option.pure_def, Option.some.injEq] at h
        subst h
        exact ⟨st, t, a, rfl, rfl, rfl, rfl⟩

/-- Characterization of a successful `SamplesPerSec.on_batch_end`: both
attributes it reads were defined, and `batch_size / elapsed` is appended. -/
theorem SamplesPerSec.on_batch_end_succeeds (s : SamplesPerSec) (now : ℚ)
    (s' : SamplesPerSec) (h : s.on_batch_end now = some s') :
    ∃ st aps, s.start_time = some st ∧ s.all_samples_per_sec = some aps ∧
      s' = { s with
              all_samples_per_sec :=
                some (aps ++ [s.batch_size / (now - st)]) } := by
  rcases s with ⟨b, aps, st⟩
  rcases st with _ | st
  · simp [SamplesPerSec.on_batch_end] at h
  · rcases aps with _ | aps
    · simp [SamplesPerSec.on_batch_end] at h
    · simp only [SamplesPerSec.on_batch_end, Option.bind_eq_bind,
        Option.some_bind, Option.pure_def, Option.some.injEq] at h
      subst h
      exact ⟨st, aps, rfl, rfl, rfl⟩

/-- Characterization of a successful `BatchTiming.on_epoch_end`: both
sequences it reads were defined, the epoch aggregate is the exact sum of the
current-epoch batch times, and it is appended to the run-scoped epoch
sequence. -/
theorem BatchTiming.on_epoch_end_some (s : BatchTiming) (r : BatchTiming × ℚ × ℚ)
    (h : s.on_epoch_end = some r) :
    ∃ ebt aet, s.epoch_batch_times = some ebt ∧ s.all_epoch_times = some aet ∧
      r = ({ s with all_epoch_times := some (aet ++ [ebt.sum]) },
        npMedian ebt, ebt.sum) := by
  rcases s with ⟨a, e, t, st⟩
  rcases t with _ | t
  · simp [BatchTiming.on_epoch_end] at h
  · rcases e with _ | e
    · simp [BatchTiming.on_epoch_end] at h
    · simp only [BatchTiming.on_epoch_end, Option.bind_eq_bind,
        Option.some_bind, Option.pure_def, Option.some.injEq] at h
      subst h
      exact ⟨t, e, rfl, rfl, rfl⟩

/-- C3: at any state whose current-epoch batch-time sequence is `ts` and whose
run-scoped epoch sequence is `es`, `on_epoch_end` computes the epoch time as
exactly the sum of `ts`, appends that value to the run-scoped epoch sequence,
and prints it together with the median of `ts`. -/
theorem batchTiming_epoch_time_additivity (s : BatchTiming) (ts es : List ℚ)
    (h1 : s.epoch_batch_times = some ts) (h2 : s.all_epoch_times = some es) :
    s.on_epoch_end =
      some ({ s with all_epoch_times := some (es ++ [ts.sum]) },
        npMedian ts, ts.sum) := by
  simp [BatchTiming.on_epoch_end, h1, h2]

/-- Witness for C3: an epoch that recorded batch times `[1, 2]` reports the
epoch time `[1, 2].sum` and appends exactly that value. -/
theorem batchTiming_epoch_time_additivity_witness :
    (⟨some [1, 2], some [], some [1, 2], none⟩ : BatchTiming).on_epoch_end =
      some (⟨some [1, 2], some ([] ++ [([1, 2] : List ℚ).sum]),
          some [1, 2], none⟩,
        npMedian [1, 2], ([1, 2] : List ℚ).sum) :=
  batchTiming_epoch_time_additivity
    ⟨some [1, 2], some [], some [1, 2], none⟩ [1, 2] [] rfl rfl

/-- C4: the suffix invariant — the current-epoch batch-time sequence, when
defined, is a time-ordered suffix of the all-batches sequence — is preserved
by every lifecycle operation of `BatchTiming` as the run invokes it: it holds
for a fresh object; `on_train_begin` preserves it from any state whose
current-epoch sequence is not yet defined (as at the start of a run);
`on_epoch_begin` (re)establishes it from any state whose all-batches sequence
is defined, clearing only the epoch-level sequence and leaving the three
run-scoped fields untouched; `on_batch_begin` preserves it; a successful
`on_batch_end` preserves it and appends one and the same elapsed value to
both sequences; `on_batch_end` never appends outside a begin/end bracket
(with no captured start it fails instead); and `on_epoch_end` preserves it. -/
theorem batchTiming_suffix_invariant :
    (timeOrderedSuffix BatchTiming.init ∧
      ∀ s : BatchTiming, s.epoch_batch_times = none →
        timeOrderedSuffix s.on_train_begin) ∧
    (∀ (s : BatchTiming) (bs : List ℚ), s.all_batch_times = some bs →
      timeOrderedSuffix s.on_epoch_begin) ∧
    (∀ s : BatchTiming,
      s.on_epoch_begin.all_batch_times = s.all_batch_times ∧
      s.on_epoch_begin.all_epoch_times = s.all_epoch_times ∧
      s.on_epoch_begin.start_time = s.start_time ∧
      s.on_epoch_begin.epoch_batch_times = some []) ∧
    (∀ (s : BatchTiming) (now : ℚ), timeOrderedSuffix s →
      timeOrderedSuffix (s.on_batch_begin now)) ∧
    (∀ (s : BatchTiming) (now : ℚ) (s' : BatchTiming),
      s.on_batch_end now = some s' →
      (timeOrderedSuffix s → timeOrderedSuffix s') ∧
      ∃ st ts bs, s.start_time = some st ∧ s.epoch_batch_times = some ts ∧
        s.all_batch_times = some bs ∧
        s'.epoch_batch_times = some (ts ++ [now - st]) ∧
        s'.all_batch_times = some (bs ++ [now - st])) ∧
    (∀ (s : BatchTiming) (now : ℚ), s.start_time = none →
      s.on_batch_end now = none) ∧
    (∀ (s : BatchTiming) (r : BatchTiming × ℚ × ℚ), s.on_epoch_end = some r →
      timeOrderedSuffix s → timeOrderedSuffix r.1) := by
  refine ⟨⟨?_, ?_⟩, ?_, ?_, ?_, ?_, ?_, ?_⟩
  · intro ts h
    simp [BatchTiming.init] at h
  · intro s hs ts h
    simp [BatchTiming.on_train_begin, hs] at h
  · intro s bs hbs ts h
    simp only [BatchTiming.on_epoch_begin, Option.some.injEq] at h
    subst h
    exact ⟨bs, hbs, List.nil_suffix⟩
  · intro s
    exact ⟨rfl, rfl, rfl, rfl⟩
  · intro s now hInv ts h
    simp only [BatchTiming.on_batch_begin] at h
    obtain ⟨bs, hbs, hsuf⟩ := hInv ts h
    exact ⟨bs, hbs, hsuf⟩
  · intro s now s' h
    obtain ⟨st, ebt, abt, hst, hebt, habt, hs'⟩ :=
      BatchTiming.on_batch_end_some s now s' h
    subst hs'
    constructor
    · intro hInv ts hts
      simp only [Option.some.injEq] at hts
      subst hts
      obtain ⟨bs, hbs, d, hd⟩ := hInv ebt hebt
      rw [hbs] at habt
      simp only [Option.some.injEq] at habt
      subst habt
      exact ⟨bs ++ [now - st], rfl, d, by rw [← List.append_assoc, hd]⟩
    · exact ⟨st, ebt, abt, hst, hebt, habt, rfl, rfl⟩
  · intro s now h
    simp [BatchTiming.on_batch_end, h]
  · intro s r h hInv ts hts
    obtain ⟨ebt, aet, hebt, haet, hr⟩ := BatchTiming.on_epoch_end_some s r h
    subst hr
    have hts' : s.epoch_batch_times = some ts := hts
    obtain ⟨bs, hbs, hsuf⟩ := hInv ts hts'
    exact ⟨bs, hbs, hsuf⟩

/-- Witness for C4: the invariant-preservation conjuncts applied at concrete
states — a fresh object after `on_train_begin`, and the state with batch
history `[5]`, an open epoch `[5]` and a captured start time `10`, taken
through `on_epoch_begin`, `on_batch_begin 11`, `on_batch_end 12` and
`on_epoch_end`; plus the failure of `on_batch_end` with no captured start. -/
theorem batchTiming_suffix_invariant_witness :
    timeOrderedSuffix BatchTiming.init.on_train_begin ∧
    timeOrderedSuffix
      (⟨some [5], some [], some [5], some 10⟩ : BatchTiming).on_epoch_begin ∧
    timeOrderedSuffix
      ((⟨some [5], some [], some [5], some 10⟩ : BatchTiming).on_batch_begin 11) ∧
    timeOrderedSuffix
      (⟨some ([5] ++ [12 - 10]), some [], some ([5] ++ [12 - 10]),
        some 10⟩ : BatchTiming) ∧
    (⟨some [], some [], some [], none⟩ : BatchTiming).on_batch_end 0 = none ∧
    timeOrderedSuffix
      (⟨some [5], some ([] ++ [([5] : List ℚ).sum]), some [5],
        some 10⟩ : BatchTiming) := by
  have hInv : timeOrderedSuffix
      (⟨some [5], some [], some [5], some 10⟩ : BatchTiming) := by
    intro ts h
    injection h with h
    subst h
    exact ⟨[5], rfl, List.suffix_refl [5]⟩
  exact ⟨batchTiming_suffix_invariant.1.2 BatchTiming.init rfl,
    batchTiming_suffix_invariant.2.1 _ [5] rfl,
    batchTiming_suffix_invariant.2.2.2.1 _ 11 hInv,
    (batchTiming_suffix_invariant.2.2.2.2.1
      ⟨some [5], some [], some [5], some 10⟩ 12
      ⟨some ([5] ++ [12 - 10]), some [], some ([5] ++ [12 - 10]), some 10⟩
      rfl).1 hInv,
    batchTiming_suffix_invariant.2.2.2.2.2.1 _ 0 rfl,
    batchTiming_suffix_invariant.2.2.2.2.2.2
      ⟨some [5], some [], some [5], some 10⟩
      (⟨some [5], some ([] ++ [([5] : List ℚ).sum]), some [5], some 10⟩,
        npMedian [5], ([5] : List ℚ).sum) rfl hInv⟩

/-- C5: the run-scoped sequences are reset to empty by `on_train_begin` and
only there — `on_epoch_begin` and `on_batch_begin` leave both fields exactly
unchanged, and `on_batch_end` and `on_epoch_end` only ever extend them by one
appended element. -/
theorem batchTiming_run_scoped_frame :
    (∀ s : BatchTiming, s.on_train_begin.all_batch_times = some [] ∧
      s.on_train_begin.all_epoch_times = some []) ∧
    (∀ s : BatchTiming, s.on_epoch_begin.all_batch_times = s.all_batch_times ∧
      s.on_epoch_begin.all_epoch_times = s.all_epoch_times) ∧
    (∀ (s : BatchTiming) (now : ℚ),
      (s.on_batch_begin now).all_batch_times = s.all_batch_times ∧
      (s.on_batch_begin now).all_epoch_times = s.all_epoch_times) ∧
    (∀ (s : BatchTiming) (now : ℚ) (s' : BatchTiming),
      s.on_batch_end now = some s' →
      (∃ bs e, s.all_batch_times = some bs ∧
        s'.all_batch_times = some (bs ++ [e])) ∧
      s'.all_epoch_times = s.all_epoch_times) ∧
    (∀ (s : BatchTiming) (r : BatchTiming × ℚ × ℚ), s.on_epoch_end = some r →
      r.1.all_batch_times = s.all_batch_times ∧
      ∃ es t, s.all_epoch_times = some es ∧
        r.1.all_epoch_times = some (es ++ [t])) := by
  refine ⟨fun s => ⟨rfl, rfl⟩, fun s => ⟨rfl, rfl⟩,
    fun s now => ⟨rfl, rfl⟩, ?_, ?_⟩
  · intro s now s' h
    obtain ⟨st, ebt, abt, _, _, habt, hs'⟩ :=
      BatchTiming.on_batch_end_some s now s' h
    subst hs'
    exact ⟨⟨abt, now - st, habt, rfl⟩, rfl⟩
  · intro s r h
    obtain ⟨ebt, aet, _, haet, hr⟩ := BatchTiming.on_epoch_end_some s r h
    subst hr
    exact ⟨rfl, aet, ebt.sum, haet, rfl⟩

/-- Witness for C5: the `on_batch_end` and `on_epoch_end` frame conjuncts at
the concrete state with batch history `[5]`, an open epoch `[5]` and a
captured start time `10`. -/
theorem batchTiming_run_scoped_frame_witness :
    ((∃ bs e,
        (⟨some [5], some [], some [5], some 10⟩ : BatchTiming).all_batch_times =
          some bs ∧
        (⟨some ([5] ++ [12 - 10]), some [], some ([5] ++ [12 - 10]),
            some 10⟩ : BatchTiming).all_batch_times = some (bs ++ [e])) ∧
      (⟨some ([5] ++ [12 - 10]), some [], some ([5] ++ [12 - 10]),
          some 10⟩ : BatchTiming).all_epoch_times =
        (⟨some [5], some [], some [5], some 10⟩ : BatchTiming).all_epoch_times) ∧
    ((⟨some [5], some ([] ++ [([5] : List ℚ).sum]), some [5],
          some 10⟩ : BatchTiming),
        npMedian [5], ([5] : List ℚ).sum).1.all_batch_times =
      (⟨some [5], some [], some [5], some 10⟩ : BatchTiming).all_batch_times ∧
    ∃ es t,
      (⟨some [5], some [], some [5], some 10⟩ : BatchTiming).all_epoch_times =
        some es ∧
      ((⟨some [5], some ([] ++ [([5] : List ℚ).sum]), some [5],
            some 10⟩ : BatchTiming),
          npMedian [5], ([5] : List ℚ).sum).1.all_epoch_times =
        some (es ++ [t]) :=
  ⟨batchTiming_run_scoped_frame.2.2.2.1
      ⟨some [5], some [], some [5], some 10⟩ 12 _ rfl,
    batchTiming_run_scoped_frame.2.2.2.2
      ⟨some [5], some [], some [5], some 10⟩ _ rfl⟩

/-- Running the batches of one epoch through `SamplesPerSec` appends
`batch_size / elapsed` for each batch to the accumulated throughput
sequence. -/
theorem SamplesPerSec.runBatches_throughputs (ps : List (ℚ × ℚ)) (s : SamplesPerSec)
    (aps : List ℚ) (h : s.all_samples_per_sec = some aps) :
    ∃ s', s.runBatches ps = some s' ∧
      s'.all_samples_per_sec = some (aps ++ throughputs s.batch_size ps) ∧
      s'.batch_size = s.batch_size := by
  induction ps generalizing s aps with
  | nil => exact ⟨s, rfl, by simp [h, throughputs], rfl⟩
  | cons p rest ih =>
      have hstep : (s.on_batch_begin p.1).on_batch_end p.2 =
          some { s with
                  all_samples_per_sec :=
                    some (aps ++ [s.batch_size / (p.2 - p.1)]),
                  start_time := some p.1 } := by
        simp [SamplesPerSec.on_batch_begin, SamplesPerSec.on_batch_end, h]
      obtain ⟨s', hrest, ha, hb⟩ :=
        ih { s with
              all_samples_per_sec := some (aps ++ [s.batch_size / (p.2 - p.1)]),
              start_time := some p.1 }
          (aps ++ [s.batch_size / (p.2 - p.1)]) rfl
      refine ⟨s', ?_, ?_, ?_⟩
      · simp only [SamplesPerSec.runBatches]
        rw [hstep]
        simp only [Option.bind_eq_bind, Option.some_bind]
        exact hrest
      · rw [ha]; simp [throughputs]
      · rw [hb]

/-- Running a sequence of epochs through `SamplesPerSec`: each `on_epoch_end`
prints the median of the whole throughput sequence accumulated so far, and
the sequence itself accumulates every epoch's throughputs without ever being
cleared. -/
theorem SamplesPerSec.runEpochs_medians (epochs : List (List (ℚ × ℚ)))
    (s : SamplesPerSec) (acc : List ℚ)
    (h : s.all_samples_per_sec = some acc) :
    ∃ s', s.runEpochs epochs =
        some (s', specRunningMedians s.batch_size acc epochs) ∧
      s'.all_samples_per_sec =
        some (acc ++ (epochs.map (throughputs s.batch_size)).flatten) ∧
      s'.batch_size = s.batch_size := by
  induction epochs generalizing s acc with
  | nil => exact ⟨s, by simp [SamplesPerSec.runEpochs, specRunningMedians],
      by simp [h], rfl⟩
  | cons ps rest ih =>
      obtain ⟨s1, hb, ha1, hbs1⟩ := SamplesPerSec.runBatches_throughputs ps s acc h
      obtain ⟨s', hrest, ha', hbs'⟩ :=
        ih s1 (acc ++ throughputs s.batch_size ps) ha1
      have hm : s1.on_epoch_end =
          some (npMedian (acc ++ throughputs s.batch_size ps)) := by
        simp [SamplesPerSec.on_epoch_end, ha1]
      refine ⟨s', ?_, ?_, hbs'.trans hbs1⟩
      · simp only [SamplesPerSec.runEpochs]
        rw [hb]
        simp only [Option.bind_eq_bind, Option.some_bind]
        rw [hm]
        simp only [Option.some_bind]
        rw [hrest]
        simp [specRunningMedians, hbs1]
      · rw [ha']
        simp [hbs1, List.append_assoc]

/-- C6: `SamplesPerSec.on_batch_end` appends exactly `batch_size / (now −
start)` to the throughput sequence; consequently, over the batches of a run
from `on_train_begin`, the accumulated sequence is exactly `batch_size /
elapsed` for each recorded batch. -/
theorem samplesPerSec_throughput :
    (∀ (s : SamplesPerSec) (st : ℚ) (aps : List ℚ) (now : ℚ),
      s.start_time = some st → s.all_samples_per_sec = some aps →
      s.on_batch_end now =
        some { s with all_samples_per_sec := some (aps ++ [s.batch_size / (now - st)]) }) ∧
    (∀ (B : ℚ) (ps : List (ℚ × ℚ)), ∃ s',
      (SamplesPerSec.init B).on_train_begin.runBatches ps = some s' ∧
      s'.all_samples_per_sec = some (throughputs B ps)) := by
  constructor
  · intro s st aps now h1 h2
    simp [SamplesPerSec.on_batch_end, h1, h2]
  · intro B ps
    obtain ⟨s', hrun, ha, _⟩ :=
      SamplesPerSec.runBatches_throughputs ps (SamplesPerSec.init B).on_train_begin
        [] rfl
    exact ⟨s', hrun,
      by simpa [SamplesPerSec.init, SamplesPerSec.on_train_begin] using ha⟩

/-- Witness for C6: a meter with `batch_size = 2`, a captured start time `5`
and an empty throughput sequence records `2 / (7 − 5)` at `on_batch_end 7`. -/
theorem samplesPerSec_throughput_witness :
    (⟨2, some [], some 5⟩ : SamplesPerSec).on_batch_end 7 =
      some ⟨2, some ([] ++ [(2 : ℚ) / (7 - 5)]), some 5⟩ :=
  samplesPerSec_throughput.1 ⟨2, some [], some 5⟩ 5 [] 7 rfl rfl

/-- C7: over any run of `SamplesPerSec` from a fresh object through
`on_train_begin` and a sequence of epochs, the medians printed at the epoch
ends are the running medians of the throughput sequence accumulated since
train-begin across the whole run (the sequence is never cleared at an epoch
boundary, as the final accumulated sequence also shows). -/
theorem samplesPerSec_median_whole_run (B : ℚ) (epochs : List (List (ℚ × ℚ)))
    (s' : SamplesPerSec) (ms : List ℚ)
    (h : (SamplesPerSec.init B).on_train_begin.runEpochs epochs =
      some (s', ms)) :
    ms = specRunningMedians B [] epochs ∧
    s'.all_samples_per_sec =
      some ((epochs.map (throughputs B)).flatten) := by
  obtain ⟨s2, hrun, ha, _⟩ :=
    SamplesPerSec.runEpochs_medians epochs
      (SamplesPerSec.init B).on_train_begin [] rfl
  rw [h] at hrun
  simp only [Option.some.injEq, Prod.mk.injEq] at hrun
  obtain ⟨hs, hm⟩ := hrun
  subst hs
  constructor
  · simpa [SamplesPerSec.init, SamplesPerSec.on_train_begin] using hm
  · simpa [SamplesPerSec.init, SamplesPerSec.on_train_begin] using ha

/-- Witness for C7: `batch_size = 6` over two one-batch epochs with elapsed
time 1 each; both printed medians range over the whole accumulated
sequence. -/
theorem samplesPerSec_median_whole_run_witness :
    [npMedian ([] ++ [(6 : ℚ) / (1 - 0)]),
      npMedian (([] ++ [(6 : ℚ) / (1 - 0)]) ++ [(6 : ℚ) / (2 - 1)])] =
      specRunningMedians 6 [] [[(0, 1)], [(1, 2)]] ∧
    (⟨6, some (([] ++ [(6 : ℚ) / (1 - 0)]) ++ [(6 : ℚ) / (2 - 1)]),
        some 1⟩ : SamplesPerSec).all_samples_per_sec =
      some (([[((0 : ℚ), (1 : ℚ))], [(1, 2)]].map (throughputs 6)).flatten) :=
  samplesPerSec_median_whole_run 6 [[(0, 1)], [(1, 2)]]
    ⟨6, some (([] ++ [(6 : ℚ) / (1 - 0)]) ++ [(6 : ℚ) / (2 - 1)]), some 1⟩
    [npMedian ([] ++ [(6 : ℚ) / (1 - 0)]),
      npMedian (([] ++ [(6 : ℚ) / (1 - 0)]) ++ [(6 : ℚ) / (2 - 1)])]
    rfl

/-- C10: `on_batch_end` reads the start timestamp (and, for `SamplesPerSec`,
the throughput accumulator) that only earlier hooks define — calling it with
no preceding `on_batch_begin`, or on a `SamplesPerSec` that never saw
`on_train_begin`, fails with an undefined-attribute read — while under the
lifecycle call order every such read is defined and every run succeeds. -/
theorem lifecycle_attribute_safety :
    (∀ now : ℚ,
      BatchTiming.init.on_train_begin.on_epoch_begin.on_batch_end now =
        none) ∧
    (∀ B t now : ℚ,
      ((SamplesPerSec.init B).on_batch_begin t).on_batch_end now = none) ∧
    (∀ epochs : List (List (ℚ × ℚ)),
      (BatchTiming.runTraining epochs).isSome) ∧
    (∀ (B : ℚ) (epochs : List (List (ℚ × ℚ))),
      ((SamplesPerSec.init B).on_train_begin.runEpochs epochs).isSome) := by
  refine ⟨fun now => rfl, fun B t now => rfl, ?_, ?_⟩
  · intro epochs
    rw [BatchTiming.runTraining_spec]
    rfl
  · intro B epochs
    obtain ⟨s', hrun, _, _⟩ :=
      SamplesPerSec.runEpochs_medians epochs
        (SamplesPerSec.init B).on_train_begin [] rfl
    rw [hrun]
    rfl

/-- C8: for a non-empty sequence, the median the components use equals the
middle element of the sorted sequence when the length is odd, and the average
of the two middle sorted elements when the length is even; the sequence it
indexes is genuinely a sorted permutation of the input. -/
theorem npMedian_sorted_middle (xs : List ℚ) (h : xs ≠ []) :
    (xs.length % 2 = 1 →
      npMedian xs = (xs.insertionSort (· ≤ ·)).getD (xs.length / 2) 0) ∧
    (xs.length % 2 = 0 →
      npMedian xs =
        ((xs.insertionSort (· ≤ ·)).getD (xs.length / 2 - 1) 0 +
          (xs.insertionSort (· ≤ ·)).getD (xs.length / 2) 0) / 2) ∧
    List.Sorted (· ≤ ·) (xs.insertionSort (· ≤ ·)) ∧
    (xs.insertionSort (· ≤ ·)).Perm xs := by
  have hn : xs.length ≠ 0 := fun h0 => h (List.length_eq_zero.mp h0)
  refine ⟨?_, ?_, List.sorted_insertionSort _ xs, List.perm_insertionSort _ xs⟩
  · intro hodd
    have hidx : (xs.length - 1) / 2 = xs.length / 2 := by omega
    simp only [npMedian]
    rw [hidx]
    exact add_self_div_two _
  · intro heven
    have hidx : (xs.length - 1) / 2 = xs.length / 2 - 1 := by omega
    simp only [npMedian]
    rw [hidx]

/-- Witness for C8 at the odd-length sequence `[1, 2, 3]` and the even-length
sequence `[1, 2, 3, 4]`. -/
theorem npMedian_sorted_middle_witness :
    npMedian [1, 2, 3] =
      (([1, 2, 3] : List ℚ).insertionSort (· ≤ ·)).getD
        (([1, 2, 3] : List ℚ).length / 2) 0 ∧
    npMedian [1, 2, 3, 4] =
      ((([1, 2, 3, 4] : List ℚ).insertionSort (· ≤ ·)).getD
          (([1, 2, 3, 4] : List ℚ).length / 2 - 1) 0 +
        (([1, 2, 3, 4] : List ℚ).insertionSort (· ≤ ·)).getD
          (([1, 2, 3, 4] : List ℚ).length / 2) 0) / 2 :=
  ⟨(npMedian_sorted_middle [1, 2, 3] (by simp)).1 (by rfl),
    (npMedian_sorted_middle [1, 2, 3, 4] (by simp)).2.1 (by rfl)⟩

/-- C9, counterexample: the spec's end-to-end scenario — two epochs with
elapsed batch times `[0.1, 0.2, 0.3]` and `[0.05, 0.05, 0.05]` — yields an
overall batch median of `0.075 = 3/40`, not the claimed `0.125 = 1/8`. -/
theorem batchTiming_scenario_median_not_eighth :
    BatchTiming.runTraining
        [[(0, 1/10), (0, 1/5), (0, 3/10)],
          [(0, 1/20), (0, 1/20), (0, 1/20)]] =
      some ([(1/5, 3/5), (1/20, 3/20)], 3/40, 3/8) ∧ (3/40 : ℚ) ≠ 1/8 := by
  constructor
  · rw [BatchTiming.runTraining_spec]
    norm_num [elapsedTimes, npMedian, List.insertionSort, List.orderedInsert]
  · norm_num

/-- C9, amended: the scenario run prints epoch 1 median `0.2` and total
`0.6`, epoch 2 median `0.05` and total `0.15`, an overall batch median of
`0.075`, and an overall epoch median of `median(0.6, 0.15) = 0.375`. -/
theorem batchTiming_scenario_eval :
    BatchTiming.runTraining
        [[(0, 1/10), (0, 1/5), (0, 3/10)],
          [(0, 1/20), (0, 1/20), (0, 1/20)]] =
      some ([(1/5, 3/5), (1/20, 3/20)], 3/40, 3/8) := by
  rw [BatchTiming.runTraining_spec]
  norm_num [elapsedTimes, npMedian, List.insertionSort, List.orderedInsert]
